import Mathlib

/-!
Verification of the RShell subsystem of mfd-connect.

The embedding below translates, from the Python sources:
  * src/mfd_connect/rshell_server.py  (Flask queue server)
  * src/mfd_connect/rshell.py         (RShellConnection client class)
and models from the specification the parts of the repository that are not
shipped in the sources (the ConnectionCompletedProcess record of
mfd_connect/base.py and the CustomPath machinery of mfd_connect/pathlib).

Python exceptions are modelled by an error type, Python dictionaries keyed by
strings by association lists, and the global mutable server state of
rshell_server.py by an explicit state record threaded through the request
handlers.  Wall-clock waiting (time.sleep) is modelled by indexing the
evolving output store by the poll number: `stores i` is the content of the
global `output_queue` dictionary at the i-th iteration of a polling loop,
which lets concurrent mutation of the store by /post_result requests be
expressed while the loop runs.
-/

namespace MfdConnect

/-- Python exceptions raised by the modelled code paths. -/
inductive PyError where
  | notImplementedError
  | timeoutError
  | valueError
deriving DecidableEq, Repr

/-- Python `str(x)` applied to an optional header value: `str(None)` is the
literal string "None". -/
def pyStr (o : Option String) : String :=
  match o with
  | some s => s
  | none => "None"

/-- A decimal digit's value, none for any other character. -/
def pyDigit (c : Char) : Option Nat :=
  if '0' ≤ c ∧ c ≤ '9' then some (c.toNat - '0'.toNat) else none

/-- Accumulate decimal digits left to right, none on a non-digit. -/
def pyNatAux : List Char → Nat → Option Nat
  | [], acc => some acc
  | c :: rest, acc =>
      match pyDigit c with
      | some d => pyNatAux rest (acc * 10 + d)
      | none => none

/-- Python `int(s)` on a string: an optional sign followed by at least one
decimal digit, none otherwise (Python raises ValueError there; the
whitespace-stripping and underscore-grouping int() also accepts never occur
in the rc headers, which the server writes from an int). -/
def pyInt (s : String) : Option Int :=
  match s.data with
  | [] => none
  | '-' :: rest =>
      if rest = [] then none
      else (pyNatAux rest 0).map (fun n => -(n : Int))
  | '+' :: rest =>
      if rest = [] then none
      else (pyNatAux rest 0).map (fun n => (n : Int))
  | cs => (pyNatAux cs 0).map (fun n => (n : Int))

/-- Lookup in a Python dict modelled as an association list
(`d.get(k, default)` is `(dictGet d k).getD default`). -/
def dictGet {α : Type} : List (String × α) → String → Option α
  | [], _ => none
  | (k', v) :: rest, k => if k' = k then some v else dictGet rest k

/-- Python dict assignment `d[k] = v`: update in place when the key exists,
append the binding otherwise. -/
def dictSet {α : Type} : List (String × α) → String → α → List (String × α)
  | [], k, v => [(k, v)]
  | (k', v') :: rest, k, v =>
      if k' = k then (k, v) :: rest else (k', v') :: dictSet rest k v

/-- rshell_server.py: `output_object = namedtuple("OutputObject", ["output", "rc"])`. -/
structure OutputObject where
  output : String
  rc : Int
deriving DecidableEq, Repr

/-- rshell_server.py: `command_object = namedtuple("CommandObject", ["command_id", "str"])`. -/
structure CommandObject where
  command_id : String
  str : String
deriving DecidableEq, Repr

/-- The global `output_queue: dict[str, output_object]` of rshell_server.py. -/
abbrev OutputStore := List (String × OutputObject)

/-- The global mutable state of rshell_server.py:
`output_queue`, `command_dict_queue` (one FIFO `Queue` per client ip, the
front of the list being the head of the queue) and `clients`.
`next_id` models the `uuid4()` supply of fresh command ids: `uuid4().int`
values are assumed distinct, which the counter realises. -/
structure ServerState where
  output_queue : OutputStore
  command_dict_queue : List (String × List CommandObject)
  clients : List String
  next_id : Nat
deriving DecidableEq, Repr

/-- The state of the freshly started server: all three globals empty. -/
def initialServerState : ServerState := ⟨[], [], [], 0⟩

/-- rshell_server.py `add_command_to_queue`: draw a fresh id from the uuid
supply, create the per-ip queue when missing, and `put` the command object at
the tail.  Returns the id together with the updated state. -/
def add_command_to_queue (command : String) (ip_address : String)
    (s : ServerState) : String × ServerState :=
  let _id := toString s.next_id
  let q := (dictGet s.command_dict_queue ip_address).getD []
  (_id,
   { s with
     command_dict_queue :=
       dictSet s.command_dict_queue ip_address (q ++ [⟨_id, command⟩])
     next_id := s.next_id + 1 })

/-- rshell_server.py `health_check` (/health/<ip>): the HTTP status code,
200 when the ip is in `clients`, 503 otherwise. -/
def health_check (ip : String) (s : ServerState) : Nat :=
  if ip ∈ s.clients then 200 else 503

/-- Response of /getCommandToExecute: 200 with a body and a CommandID header,
or 204 "No more elements left in the queue". -/
inductive PollResponse where
  | command (body : String) (command_id : String)
  | noContent
deriving DecidableEq, Repr

/-- rshell_server.py `get_command_to_execute` (/getCommandToExecute): record
the requesting address in `clients` when new; then, when that address has a
non-empty queue, pop its head and return it with its id, else return 204.
(When the dict has no queue for the address, the source reads from a fresh
empty `Queue()` that is never stored, so the dict is unchanged.) -/
def get_command_to_execute (remote_addr : String) (s : ServerState) :
    PollResponse × ServerState :=
  let s1 :=
    { s with
      clients :=
        if remote_addr ∈ s.clients then s.clients
        else s.clients ++ [remote_addr] }
  match dictGet s1.command_dict_queue remote_addr with
  | some (c :: rest) =>
      (PollResponse.command c.str c.command_id,
       { s1 with
         command_dict_queue := dictSet s1.command_dict_queue remote_addr rest })
  | some [] => (PollResponse.noContent, s1)
  | none => (PollResponse.noContent, s1)

/-- rshell_server.py `post_result` (/post_result): store the posted body under
the CommandID header (Python `str` of a missing header is "None"), with
`rc = int(request.headers.get("rc", -1))` modelled by its already-parsed
integer value defaulting to -1. -/
def post_result (data : String) (command_id_header : Option String)
    (rc_header : Option Int) (s : ServerState) : ServerState :=
  let command_id := pyStr command_id_header
  let rc := rc_header.getD (-1)
  { s with output_queue := dictSet s.output_queue command_id ⟨data, rc⟩ }

/-- rshell_server.py `post_exception` (/exception): like `post_result` but the
stored rc is always -1. -/
def post_exception (data : String) (command_id_header : Option String)
    (s : ServerState) : ServerState :=
  let command_id := pyStr command_id_header
  { s with output_queue := dictSet s.output_queue command_id ⟨data, -1⟩ }

/-- The polling loop of rshell_server.py `get_output`: at poll `i` read the
output dictionary (`output_queue.get(command_id, None)`, a non-mutating read)
and return the stored object together with the dictionary as it stood at that
moment; otherwise sleep one second and retry while fuel remains.  The fuel is
the `timeout` counter of the source after `timeout = timeout + 5`. -/
def get_output_go (command_id : String) (stores : Nat → OutputStore) :
    Nat → Nat → Except PyError (OutputObject × OutputStore)
  | _, 0 => Except.error PyError.timeoutError
  | i, fuel + 1 =>
      match dictGet (stores i) command_id with
      | some result => Except.ok (result, stores i)
      | none => get_output_go command_id stores (i + 1) fuel

/-- rshell_server.py `get_output`: wait up to `timeout + 5` one-second polls
for an entry under `command_id` in the output dictionary, returning it as soon
as present and raising TimeoutError otherwise.  The second component of a
successful result is the output dictionary as the loop last read it. -/
def get_output (command_id : String) (timeout : Nat)
    (stores : Nat → OutputStore) : Except PyError (OutputObject × OutputStore) :=
  get_output_go command_id stores 0 (timeout + 5)

/-- Response of the /execute_command endpoint. -/
inductive ExecResponse where
  | badRequest
  | endOk
  | okOutput (body : String) (command_id : String) (rc : Int)
  | internalError
deriving DecidableEq, Repr

/-- rshell_server.py `execute_command` (/execute_command): parse the form
fields (`timeout` defaulting to 600, `ip` through Python `str`); a missing or
empty `command` is falsy and yields 400 "No command provided" with the state
untouched; otherwise the command is enqueued, the literal command "end"
returns 200 at once, and any other command blocks in `get_output` — a
TimeoutError escaping the handler is an internal error response. -/
def server_execute_command (form_command : Option String)
    (form_ip : Option String) (form_timeout : Option Nat) (s : ServerState)
    (stores : Nat → OutputStore) : ExecResponse × ServerState :=
  let timeout := form_timeout.getD 600
  let ip_address := pyStr form_ip
  match form_command with
  | some command =>
      if command = "" then (ExecResponse.badRequest, s)
      else
        let r := add_command_to_queue command ip_address s
        if command = "end" then (ExecResponse.endOk, r.2)
        else
          match get_output r.1 timeout stores with
          | Except.ok p => (ExecResponse.okOutput p.1.output r.1 p.1.rc, r.2)
          | Except.error _ => (ExecResponse.internalError, r.2)
  | none => (ExecResponse.badRequest, s)

/-!
Trace semantics of the server.  Each HTTP request is an event; `traceStep`
applies the request handler's state change and additionally records, as ghost
history, every enqueue performed by /execute_command and every delivery
performed by /getCommandToExecute, tagged with the client ip the queue
belongs to.
-/

/-- One HTTP request arriving at the rshell server.  For /execute_command only
the state-changing part (parse + possible enqueue) is an event; the blocking
read of the output store is pure in this model (`get_output`). -/
inductive ServerEvent where
  | execCmd (form_command : Option String) (form_ip : Option String)
  | poll (remote_addr : String)
  | health (ip : String)
  | postResult (data : String) (command_id_header : Option String)
      (rc_header : Option Int)
  | postException (data : String) (command_id_header : Option String)
deriving DecidableEq, Repr

/-- Server state plus ghost histories: `enq` lists, in order, every command
object enqueued by /execute_command with the ip it was enqueued for, and
`del` lists, in order, every command object handed out by
/getCommandToExecute with the ip it was delivered to. -/
structure TraceState where
  st : ServerState
  enq : List (String × CommandObject)
  del : List (String × CommandObject)
deriving DecidableEq, Repr

/-- Ghost-instrumented request handling (state changes exactly as in the
handlers above). -/
def traceStep (t : TraceState) (e : ServerEvent) : TraceState :=
  match e with
  | ServerEvent.health _ => t
  | ServerEvent.postResult data cid rc => { t with st := post_result data cid rc t.st }
  | ServerEvent.postException data cid => { t with st := post_exception data cid t.st }
  | ServerEvent.execCmd form_command form_ip =>
      match form_command with
      | none => t
      | some command =>
          if command = "" then t
          else
            let ip := pyStr form_ip
            let r := add_command_to_queue command ip t.st
            { st := r.2, enq := t.enq ++ [(ip, ⟨r.1, command⟩)], del := t.del }
  | ServerEvent.poll remote_addr =>
      match get_command_to_execute remote_addr t.st with
      | (PollResponse.command body cid, s') =>
          { st := s', enq := t.enq, del := t.del ++ [(remote_addr, ⟨cid, body⟩)] }
      | (PollResponse.noContent, s') => { st := s', enq := t.enq, del := t.del }

/-- Run the server from its initial state over a list of requests. -/
def runTrace (tr : List ServerEvent) : TraceState :=
  List.foldl traceStep ⟨initialServerState, [], []⟩ tr

/-- The pending queue of a client ip in a server state. -/
def queueFor (ip : String) (s : ServerState) : List CommandObject :=
  (dictGet s.command_dict_queue ip).getD []

/-- The commands of a ghost history that belong to a given ip, in order. -/
def histFor (ip : String) (l : List (String × CommandObject)) :
    List CommandObject :=
  (l.filter (fun p => p.1 == ip)).map Prod.snd

/-- Ghost history of commands enqueued for a given ip, in enqueue order. -/
def enqFor (ip : String) (t : TraceState) : List CommandObject :=
  histFor ip t.enq

/-- Ghost history of commands delivered to a given ip, in delivery order. -/
def delFor (ip : String) (t : TraceState) : List CommandObject :=
  histFor ip t.del

/-!
The RShellConnection client class (rshell.py).
-/

/-- Modelled from the spec: `ConnectionCompletedProcess` of mfd_connect/base.py
(not among the sources) is an "immutable result record (args, stdout/stderr as
text and bytes, return code)" that "raises NotImplementedError for fields not
populated by a given transport"; a field is unpopulated when the keyword was
not passed to the constructor. -/
structure ConnectionCompletedProcess where
  args : String
  stdout_field : Option String
  stderr_field : Option String
  stdout_bytes_field : Option (List UInt8)
  stderr_bytes_field : Option (List UInt8)
  return_code_field : Option Int
deriving DecidableEq, Repr

/-- Reading `.stdout`: the supplied text, or NotImplementedError when the
transport did not populate it. -/
def ConnectionCompletedProcess.stdout (p : ConnectionCompletedProcess) :
    Except PyError String :=
  match p.stdout_field with
  | some v => Except.ok v
  | none => Except.error PyError.notImplementedError

/-- Reading `.stderr`: the supplied text, or NotImplementedError when the
transport did not populate it. -/
def ConnectionCompletedProcess.stderr (p : ConnectionCompletedProcess) :
    Except PyError String :=
  match p.stderr_field with
  | some v => Except.ok v
  | none => Except.error PyError.notImplementedError

/-- Reading `.stdout_bytes`, NotImplementedError when unpopulated. -/
def ConnectionCompletedProcess.stdout_bytes (p : ConnectionCompletedProcess) :
    Except PyError (List UInt8) :=
  match p.stdout_bytes_field with
  | some v => Except.ok v
  | none => Except.error PyError.notImplementedError

/-- Reading `.stderr_bytes`, NotImplementedError when unpopulated. -/
def ConnectionCompletedProcess.stderr_bytes (p : ConnectionCompletedProcess) :
    Except PyError (List UInt8) :=
  match p.stderr_bytes_field with
  | some v => Except.ok v
  | none => Except.error PyError.notImplementedError

/-- Reading `.return_code`, NotImplementedError when unpopulated. -/
def ConnectionCompletedProcess.return_code (p : ConnectionCompletedProcess) :
    Except PyError Int :=
  match p.return_code_field with
  | some v => Except.ok v
  | none => Except.error PyError.notImplementedError

/-- The keyword-only arguments of `RShellConnection.execute_command` other
than `timeout`; every one of them is merely logged as unsupported by the
source.  `custom_exception` records only whether one was passed. -/
structure ExecOptions where
  input_data : Option String
  cwd : Option String
  env : Option (List (String × String))
  stderr_to_stdout : Bool
  discard_stdout : Bool
  discard_stderr : Bool
  skip_logging : Bool
  expected_return_codes : Option (List Int)
  shell : Bool
  custom_exception : Bool
deriving DecidableEq, Repr

/-- The HTTP response `RShellConnection.execute_command` receives from the
server's /execute_command endpoint: the body text and the value of the "rc"
header when present (HTTP header values are strings). -/
structure RShellResponse where
  text : String
  rc_header : Option String
deriving DecidableEq, Repr

/-- rshell.py `RShellConnection.execute_command`: log each unsupported option,
POST {command, timeout, ip} and build the result from the given response:
`args` is the command, `stdout` the response body, `return_code` is
`int(response.headers.get("rc", -1))` — the parsed "rc" header, -1 when the
header is absent, ValueError when present but non-numeric.  Both the
`skip_logging` early return and the final return yield the same record. -/
def connection_execute_command (ip : String) (command : String)
    (timeout : Option Nat) (opts : ExecOptions) (response : RShellResponse) :
    Except PyError ConnectionCompletedProcess :=
  let rc_parsed : Option Int :=
    match response.rc_header with
    | none => some (-1)
    | some h => pyInt h
  match rc_parsed with
  | none => Except.error PyError.valueError
  | some rc =>
      let completed_process : ConnectionCompletedProcess :=
        ⟨command, some response.text, none, none, none, some rc⟩
      if opts.skip_logging then Except.ok completed_process
      else Except.ok completed_process

/-- A connection object, identified opaquely; `RShellConnection.path` stores
the very connection it was called on into the path it returns. -/
structure ConnectionRef where
  id : Nat
deriving DecidableEq, Repr

/-- Modelled from the spec: the `CustomPath` variants of mfd_connect/pathlib
(not among the sources) "wrap a path string plus an owning Connection; no
independent state beyond that pair". -/
structure CustomPath where
  path : String
  owner : ConnectionRef
deriving DecidableEq, Repr

/-- Modelled from the spec: `custom_path_factory` of mfd_connect/pathlib (not
among the sources) builds the OS-flavored CustomPath variant for the given
arguments and owner; every variant wraps exactly the path string and the
owner. -/
def custom_path_factory (arg : String) (owner : ConnectionRef) : CustomPath :=
  ⟨arg, owner⟩

/-- rshell.py `RShellConnection.path`: on Python ≥ 3.12 delegate to
`custom_path_factory(*args, owner=self)`, otherwise construct
`CustomPath(*args, owner=self)`. -/
def RShellConnection.path (py312 : Bool) (self : ConnectionRef)
    (arg : String) : CustomPath :=
  if py312 then custom_path_factory arg self else CustomPath.mk arg self

/-- OSName values (mfd_typing.os_values, external dependency). -/
inductive OSName where
  | WINDOWS
  | LINUX
  | FREEBSD
  | ESXI
  | EFISHELL
deriving DecidableEq, Repr

/-- OSType values (mfd_typing.os_values, external dependency). -/
inductive OSType where
  | WINDOWS
  | POSIX
  | EFISHELL
deriving DecidableEq, Repr

/-- OSBitness values (mfd_typing.os_values, external dependency). -/
inductive OSBitness where
  | OS_32BIT
  | OS_64BIT
deriving DecidableEq, Repr

/-- CPUArchitecture values (mfd_typing.cpu_values, external dependency). -/
inductive CPUArchitecture where
  | X86
  | X86_64
  | ARM
  | ARM64
deriving DecidableEq, Repr

/-- rshell.py line 214: `get_os_name` raises NotImplementedError. -/
def RShellConnection.get_os_name : Except PyError OSName :=
  Except.error PyError.notImplementedError

/-- rshell.py line 217: `get_os_type` raises NotImplementedError. -/
def RShellConnection.get_os_type : Except PyError OSType :=
  Except.error PyError.notImplementedError

/-- rshell.py line 220: `get_os_bitness` raises NotImplementedError. -/
def RShellConnection.get_os_bitness : Except PyError OSBitness :=
  Except.error PyError.notImplementedError

/-- rshell.py line 223: `get_cpu_architecture` raises NotImplementedError. -/
def RShellConnection.get_cpu_architecture : Except PyError CPUArchitecture :=
  Except.error PyError.notImplementedError

/-- rshell.py line 226: `restart_platform` raises NotImplementedError. -/
def RShellConnection.restart_platform : Except PyError Unit :=
  Except.error PyError.notImplementedError

/-- rshell.py line 229: `shutdown_platform` raises NotImplementedError. -/
def RShellConnection.shutdown_platform : Except PyError Unit :=
  Except.error PyError.notImplementedError

/-- rshell.py line 232: `wait_for_host` raises NotImplementedError. -/
def RShellConnection.wait_for_host (timeout : Nat) : Except PyError Unit :=
  Except.error PyError.notImplementedError

/-- The health-polling loop of `RShellConnection.__init__`: at attempt `k` the
server's request history is `traces k`; the loop succeeds as soon as
/health/<ip> answers 200 and gives up (TimeoutError) when the
connection-timeout counter — `fuel` remaining attempts — expires. -/
def rshell_init_poll_loop (ip : String) (traces : Nat → List ServerEvent) :
    Nat → Nat → Bool
  | _, 0 => false
  | k, fuel + 1 =>
      if health_check ip (runTrace (traces k)).st = 200 then true
      else rshell_init_poll_loop ip traces (k + 1) fuel

/-- rshell.py `RShellConnection.__init__` health loop from the first attempt:
true when the constructor completes, false when it raises TimeoutError. -/
def rshell_init_ok (ip : String) (traces : Nat → List ServerEvent)
    (fuel : Nat) : Bool :=
  rshell_init_poll_loop ip traces 0 fuel

/-!
Helper lemmas about the dictionary model and the polling loop.
-/

theorem dictGet_dictSet_same {α : Type} (d : List (String × α)) (k : String)
    (v : α) : dictGet (dictSet d k v) k = some v := by
  induction d with
  | nil => simp [dictGet, dictSet]
  | cons p rest ih =>
      obtain ⟨k', v'⟩ := p
      by_cases h : k' = k
      · subst h; simp [dictSet, dictGet]
      · simp [dictSet, dictGet, h, ih]

theorem dictGet_dictSet_ne {α : Type} (d : List (String × α)) (k k' : String)
    (v : α) (h : k' ≠ k) : dictGet (dictSet d k v) k' = dictGet d k' := by
  induction d with
  | nil => simp [dictGet, dictSet, Ne.symm h]
  | cons p rest ih =>
      obtain ⟨a, b⟩ := p
      by_cases hak : a = k
      · subst hak; simp [dictSet, dictGet, Ne.symm h]
      · by_cases hak' : a = k'
        · subst hak'; simp [dictSet, dictGet, hak]
        · simp [dictSet, dictGet, hak, hak', ih]

theorem get_output_go_found (cid : String) (stores : Nat → OutputStore)
    (r : OutputObject) :
    ∀ fuel k i, k < fuel → dictGet (stores (i + k)) cid = some r →
      (∀ j, j < k → dictGet (stores (i + j)) cid = none) →
      get_output_go cid stores i fuel = Except.ok (r, stores (i + k)) := by
  intro fuel
  induction fuel with
  | zero => intro k i hk _ _; exact absurd hk (Nat.not_lt_zero k)
  | succ fuel ih =>
      intro k i hk hr hmin
      cases k with
      | zero =>
          have h0 : dictGet (stores i) cid = some r := by simpa using hr
          simp [get_output_go, h0]
      | succ k' =>
          have h0 : dictGet (stores i) cid = none := by
            simpa using hmin 0 (Nat.succ_pos k')
          have hr' : dictGet (stores ((i + 1) + k')) cid = some r := by
            have e : (i + 1) + k' = i + (k' + 1) := by omega
            rw [e]; exact hr
          have hmin' : ∀ j, j < k' → dictGet (stores ((i + 1) + j)) cid = none := by
            intro j hj
            have e : (i + 1) + j = i + (j + 1) := by omega
            rw [e]; exact hmin (j + 1) (by omega)
          have hrec := ih k' (i + 1) (by omega) hr' hmin'
          have e : (i + 1) + k' = i + (k' + 1) := by omega
          rw [e] at hrec
          simp [get_output_go, h0, hrec]

theorem get_output_go_none (cid : String) (stores : Nat → OutputStore) :
    ∀ fuel i, (∀ j, j < fuel → dictGet (stores (i + j)) cid = none) →
      get_output_go cid stores i fuel = Except.error PyError.timeoutError := by
  intro fuel
  induction fuel with
  | zero => intro i _; simp [get_output_go]
  | succ fuel ih =>
      intro i h
      have h0 : dictGet (stores i) cid = none := by
        simpa using h 0 (Nat.succ_pos fuel)
      have hrec := ih (i + 1) (fun j hj => by
        have e : (i + 1) + j = i + (j + 1) := by omega
        rw [e]; exact h (j + 1) (by omega))
      simp [get_output_go, h0, hrec]

theorem get_output_go_retains (cid : String) (stores : Nat → OutputStore) :
    ∀ fuel i r st', get_output_go cid stores i fuel = Except.ok (r, st') →
      dictGet st' cid = some r := by
  intro fuel
  induction fuel with
  | zero => intro i r st' h; simp [get_output_go] at h
  | succ fuel ih =>
      intro i r st' h
      cases hd : dictGet (stores i) cid with
      | some result =>
          simp [get_output_go, hd] at h
          obtain ⟨h1, h2⟩ := h
          subst h1; subst h2; exact hd
      | none =>
          simp [get_output_go, hd] at h
          exact ih (i + 1) r st' h

/-!
Claim theorems.
-/

/-- C5: for every ConnectionCompletedProcess constructed without one of the
fields stdout, stderr or return_code, reading that field raises
NotImplementedError; when the field was supplied at construction, reading it
returns exactly the supplied value.  (ConnectionCompletedProcess is modelled
from the spec, mfd_connect/base.py being outside the sources.) -/
theorem ccp_field_access (p : ConnectionCompletedProcess) :
    (p.stdout_field = none → p.stdout = Except.error PyError.notImplementedError) ∧
    (∀ v, p.stdout_field = some v → p.stdout = Except.ok v) ∧
    (p.stderr_field = none → p.stderr = Except.error PyError.notImplementedError) ∧
    (∀ v, p.stderr_field = some v → p.stderr = Except.ok v) ∧
    (p.return_code_field = none → p.return_code = Except.error PyError.notImplementedError) ∧
    (∀ v, p.return_code_field = some v → p.return_code = Except.ok v) := by
  refine ⟨?_, ?_, ?_, ?_, ?_, ?_⟩
  · intro h; simp [ConnectionCompletedProcess.stdout, h]
  · intro v h; simp [ConnectionCompletedProcess.stdout, h]
  · intro h; simp [ConnectionCompletedProcess.stderr, h]
  · intro v h; simp [ConnectionCompletedProcess.stderr, h]
  · intro h; simp [ConnectionCompletedProcess.return_code, h]
  · intro v h; simp [ConnectionCompletedProcess.return_code, h]

/-- Witness for C5: the record of test_base.py built with only args raises on
stdout and return_code, and the fully populated record returns the supplied
values. -/
theorem ccp_field_access_witness :
    (ConnectionCompletedProcess.mk "test" none none none none none).stdout
        = Except.error PyError.notImplementedError ∧
    (ConnectionCompletedProcess.mk "test" none none none none none).return_code
        = Except.error PyError.notImplementedError ∧
    (ConnectionCompletedProcess.mk "test" (some "Success") (some "Error")
        none none (some 0)).stdout = Except.ok "Success" ∧
    (ConnectionCompletedProcess.mk "test" (some "Success") (some "Error")
        none none (some 0)).return_code = Except.ok 0 :=
  ⟨(ccp_field_access _).1 rfl,
   (ccp_field_access _).2.2.2.2.1 rfl,
   (ccp_field_access _).2.1 "Success" rfl,
   (ccp_field_access _).2.2.2.2.2 0 rfl⟩

/-- C6 counterexample: RShellConnection.get_os_name raises
NotImplementedError when called (rshell.py line 215), refuting the claim that
it is implemented and does not raise. -/
theorem rshell_get_os_name_raises :
    RShellConnection.get_os_name = Except.error PyError.notImplementedError :=
  rfl

/-- C6 (amended): RShellConnection leaves the platform-query and power
operations of the abstract contract unimplemented — get_os_name, get_os_type,
get_os_bitness, get_cpu_architecture, restart_platform, shutdown_platform and
wait_for_host all raise NotImplementedError when called. -/
theorem rshell_platform_methods_unimplemented :
    RShellConnection.get_os_name = Except.error PyError.notImplementedError ∧
    RShellConnection.get_os_type = Except.error PyError.notImplementedError ∧
    RShellConnection.get_os_bitness = Except.error PyError.notImplementedError ∧
    RShellConnection.get_cpu_architecture = Except.error PyError.notImplementedError ∧
    RShellConnection.restart_platform = Except.error PyError.notImplementedError ∧
    RShellConnection.shutdown_platform = Except.error PyError.notImplementedError ∧
    RShellConnection.wait_for_host 60 = Except.error PyError.notImplementedError :=
  ⟨rfl, rfl, rfl, rfl, rfl, rfl, rfl⟩

/-- C7: RShellConnection.path returns a CustomPath wrapping exactly the given
path string together with the connection it was called on as owner, on both
the Python ≥ 3.12 branch (custom_path_factory) and the older branch
(CustomPath constructor). -/
theorem rshell_path_owner (py312 : Bool) (self : ConnectionRef) (arg : String) :
    RShellConnection.path py312 self arg = CustomPath.mk arg self ∧
    (RShellConnection.path py312 self arg).owner = self := by
  cases py312 <;> exact ⟨rfl, rfl⟩

/-- C9: the ConnectionCompletedProcess built by RShellConnection.execute_command
does not depend on input_data, cwd, env, stderr_to_stdout, discard_stdout,
discard_stderr, expected_return_codes, shell or custom_exception: two calls
with the same command, timeout and server response return equal results
however those nine options differ. -/
theorem rshell_execute_command_option_independence (ip command : String)
    (timeout : Option Nat) (o1 o2 : ExecOptions) (response : RShellResponse)
    (h : o1.skip_logging = o2.skip_logging) :
    connection_execute_command ip command timeout o1 response =
      connection_execute_command ip command timeout o2 response := by
  unfold connection_execute_command
  simp only [ite_self]

/-- Witness for C9: two calls whose nine unsupported options all differ
return the same result. -/
theorem rshell_execute_command_option_independence_witness :
    connection_execute_command "10.10.10.10" "ls" (some 5)
        ⟨some "x", some "/tmp", some [("A", "B")], true, true, true, false,
         some [0, 1], true, true⟩ ⟨"out", some "0"⟩ =
      connection_execute_command "10.10.10.10" "ls" (some 5)
        ⟨none, none, none, false, false, false, false, none, false, false⟩
        ⟨"out", some "0"⟩ :=
  rshell_execute_command_option_independence "10.10.10.10" "ls" (some 5) _ _
    ⟨"out", some "0"⟩ rfl

/-- C1: whenever RShellConnection.execute_command returns a completed process,
its args field is the command, its stdout is the body text of the server's
response to the execute_command POST, and its return_code is the integer
value of the response's "rc" header, or -1 when that header is absent. -/
theorem rshell_execute_command_result (ip command : String)
    (timeout : Option Nat) (opts : ExecOptions) (response : RShellResponse)
    (cp : ConnectionCompletedProcess)
    (h : connection_execute_command ip command timeout opts response
        = Except.ok cp) :
    cp.args = command ∧ cp.stdout = Except.ok response.text ∧
    (response.rc_header = none → cp.return_code = Except.ok (-1)) ∧
    (∀ s n, response.rc_header = some s → pyInt s = some n →
      cp.return_code = Except.ok n) := by
  unfold connection_execute_command at h
  cases hrc : response.rc_header with
  | none =>
      rw [hrc] at h
      simp only [ite_self, Except.ok.injEq] at h
      subst h
      refine ⟨rfl, rfl, fun _ => rfl, ?_⟩
      intro s n hs _
      exact absurd hs (by simp)
  | some hdr =>
      rw [hrc] at h
      cases hpi : pyInt hdr with
      | none => simp [hpi, ite_self] at h
      | some n0 =>
          simp only [hpi, ite_self, Except.ok.injEq] at h
          subst h
          refine ⟨rfl, rfl, fun hn => absurd hn (by simp), ?_⟩
          intro s n hs hn
          have hses : hdr = s := by injection hs
          subst hses
          rw [hpi] at hn
          injection hn with hnn
          subst hnn
          rfl

/-- Witness for C1: a concrete response with body "body" and rc header "7"
yields a completed process with args "ls", stdout "body" and return code 7. -/
theorem rshell_execute_command_result_witness :
    (ConnectionCompletedProcess.mk "ls" (some "body") none none none
        (some 7)).args = "ls" ∧
    (ConnectionCompletedProcess.mk "ls" (some "body") none none none
        (some 7)).stdout = Except.ok "body" ∧
    ((RShellResponse.mk "body" (some "7")).rc_header = none →
      (ConnectionCompletedProcess.mk "ls" (some "body") none none none
        (some 7)).return_code = Except.ok (-1)) ∧
    (∀ s n, (RShellResponse.mk "body" (some "7")).rc_header = some s →
      pyInt s = some n →
      (ConnectionCompletedProcess.mk "ls" (some "body") none none none
        (some 7)).return_code = Except.ok n) :=
  rshell_execute_command_result "10.10.10.10" "ls" none
    ⟨none, none, none, false, false, false, false, none, false, false⟩
    ⟨"body", some "7"⟩
    (ConnectionCompletedProcess.mk "ls" (some "body") none none none (some 7))
    (by rfl)

/-- C2: rshell_server.py get_output returns the recorded output object for a
command id at the first one-second poll where one is present, and raises
TimeoutError when none is present at any of the timeout + 5 polls the wait is
bounded by. -/
theorem rshell_get_output_spec (cid : String) (tmo : Nat)
    (stores : Nat → OutputStore) :
    (∀ i r, i < tmo + 5 → dictGet (stores i) cid = some r →
      (∀ j, j < i → dictGet (stores j) cid = none) →
      get_output cid tmo stores = Except.ok (r, stores i)) ∧
    ((∀ i, i < tmo + 5 → dictGet (stores i) cid = none) →
      get_output cid tmo stores = Except.error PyError.timeoutError) := by
  constructor
  · intro i r hi hr hmin
    have hmain := get_output_go_found cid stores r (tmo + 5) i 0 hi
      (by simpa using hr) (fun j hj => by simpa using hmin j hj)
    simpa [get_output] using hmain
  · intro h
    have hmain := get_output_go_none cid stores (tmo + 5) 0
      (fun j hj => by simpa using h j hj)
    simpa [get_output] using hmain

/-- Witness for C2: with the output for command id "1" present from the
start, get_output returns it; with no output ever posted for id "2", it
raises TimeoutError. -/
theorem rshell_get_output_spec_witness :
    get_output "1" 0 (fun _ => [("1", OutputObject.mk "out" 0)])
        = Except.ok (OutputObject.mk "out" 0, [("1", OutputObject.mk "out" 0)]) ∧
    get_output "2" 0 (fun _ => []) = Except.error PyError.timeoutError :=
  ⟨(rshell_get_output_spec "1" 0 (fun _ => [("1", OutputObject.mk "out" 0)])).1
      0 (OutputObject.mk "out" 0) (by omega) (by rfl)
      (fun j hj => absurd hj (Nat.not_lt_zero j)),
   (rshell_get_output_spec "2" 0 (fun _ => [])).2 (fun _ _ => rfl)⟩

/-- C4 counterexample: with the output for command id "1" recorded, get_output
returns the recorded object, yet the output store it last read still maps "1"
to that object — the read (`output_queue.get`) removes nothing, refuting the
claim that the server retains no entry once the result is read. -/
theorem rshell_output_not_discarded :
    get_output "1" 600 (fun _ => [("1", OutputObject.mk "done" 0)])
        = Except.ok (OutputObject.mk "done" 0, [("1", OutputObject.mk "done" 0)]) ∧
    dictGet [("1", OutputObject.mk "done" 0)] "1" ≠ none := by
  exact ⟨by rfl, by simp [dictGet]⟩

/-- C4 (amended): after get_output returns the stored output for a command id,
the output store still holds that entry — the store the loop last read maps
the id to the very object returned, since reading never removes entries. -/
theorem rshell_get_output_retains_entry (cid : String) (tmo : Nat)
    (stores : Nat → OutputStore) (r : OutputObject) (store' : OutputStore)
    (h : get_output cid tmo stores = Except.ok (r, store')) :
    dictGet store' cid = some r :=
  get_output_go_retains cid stores (tmo + 5) 0 r store'
    (by simpa [get_output] using h)

/-- Witness for C4's amended theorem at a concrete store. -/
theorem rshell_get_output_retains_entry_witness :
    dictGet [("1", OutputObject.mk "done" 0)] "1"
        = some (OutputObject.mk "done" 0) :=
  rshell_get_output_retains_entry "1" 600
    (fun _ => [("1", OutputObject.mk "done" 0)]) (OutputObject.mk "done" 0)
    [("1", OutputObject.mk "done" 0)] (by rfl)

/-- C8: the /execute_command endpoint answers 400 "No command provided", with
the server state (in particular every per-client queue) unchanged, exactly
when the command form field is missing or empty; and the command "end" is
enqueued and answered 200 immediately, without waiting on any output. -/
theorem rshell_server_execute_command_spec (fc fip : Option String)
    (ft : Option Nat) (s : ServerState) (stores : Nat → OutputStore) :
    ((server_execute_command fc fip ft s stores).1 = ExecResponse.badRequest ↔
      (fc = none ∨ fc = some "")) ∧
    ((fc = none ∨ fc = some "") →
      (server_execute_command fc fip ft s stores).2 = s) ∧
    (fc = some "end" → server_execute_command fc fip ft s stores =
      (ExecResponse.endOk, (add_command_to_queue "end" (pyStr fip) s).2)) := by
  refine ⟨⟨?_, ?_⟩, ?_, ?_⟩
  · intro h
    cases fc with
    | none => exact Or.inl rfl
    | some cmd =>
        by_cases hc : cmd = ""
        · exact Or.inr (by rw [hc])
        · exfalso
          unfold server_execute_command at h
          by_cases he : cmd = "end"
          · simp [hc, he] at h
          · cases hg : get_output (add_command_to_queue cmd (pyStr fip) s).1
                (ft.getD 600) stores with
            | ok p => simp [hc, he, hg] at h
            | error e => simp [hc, he, hg] at h
  · rintro (rfl | rfl)
    · rfl
    · simp [server_execute_command]
  · rintro (rfl | rfl)
    · rfl
    · simp [server_execute_command]
  · rintro rfl
    simp [server_execute_command]

/-- Witness for C8: the empty command leaves the initial state untouched, and
the command "end" returns 200 with only the enqueue performed. -/
theorem rshell_server_execute_command_spec_witness :
    (server_execute_command (some "") (some "1.2.3.4") none initialServerState
        (fun _ => [])).2 = initialServerState ∧
    server_execute_command (some "end") (some "1.2.3.4") none initialServerState
        (fun _ => []) =
      (ExecResponse.endOk,
       (add_command_to_queue "end" (pyStr (some "1.2.3.4"))
         initialServerState).2) :=
  ⟨(rshell_server_execute_command_spec (some "") (some "1.2.3.4") none
      initialServerState (fun _ => [])).2.1 (Or.inr rfl),
   (rshell_server_execute_command_spec (some "end") (some "1.2.3.4") none
      initialServerState (fun _ => [])).2.2 rfl⟩

/-!
The FIFO invariant of the per-client command queues.
-/

theorem histFor_append (l : List (String × CommandObject)) (ip ip' : String)
    (c : CommandObject) :
    histFor ip (l ++ [(ip', c)]) =
      histFor ip l ++ (if ip' = ip then [c] else []) := by
  unfold histFor
  rw [List.filter_append, List.map_append]
  congr 1
  by_cases h : ip' = ip
  · simp [h]
  · simp [h]

/-- The pending queue of an ip after an enqueue: its own queue grows by the
new command object at the tail, every other queue is untouched. -/
theorem queueFor_add (cmd ipa ip : String) (s : ServerState) :
    queueFor ip (add_command_to_queue cmd ipa s).2 =
      (if ipa = ip
       then queueFor ip s ++ [⟨(add_command_to_queue cmd ipa s).1, cmd⟩]
       else queueFor ip s) := by
  by_cases hip : ipa = ip
  · subst hip
    simp [queueFor, add_command_to_queue, dictGet_dictSet_same]
  · simp [queueFor, add_command_to_queue,
      dictGet_dictSet_ne _ _ _ _ (Ne.symm hip), hip]

/-- Invariant: for every client ip, the full enqueue history equals the full
delivery history followed by the currently pending queue. -/
def queueInv (t : TraceState) : Prop :=
  ∀ ip, enqFor ip t = delFor ip t ++ queueFor ip t.st

theorem traceStep_inv (t : TraceState) (e : ServerEvent) (h : queueInv t) :
    queueInv (traceStep t e) := by
  intro ip
  have hq := h ip
  simp only [enqFor, delFor] at hq
  cases e with
  | health x => exact h ip
  | postResult data cid rc =>
      simpa [traceStep, enqFor, delFor, queueFor, post_result] using h ip
  | postException data cid =>
      simpa [traceStep, enqFor, delFor, queueFor, post_exception] using h ip
  | execCmd fc fip =>
      cases fc with
      | none => exact h ip
      | some cmd =>
          by_cases hc : cmd = ""
          · simpa [traceStep, hc] using h ip
          · have hstep : traceStep t (ServerEvent.execCmd (some cmd) fip) =
                { st := (add_command_to_queue cmd (pyStr fip) t.st).2,
                  enq := t.enq ++ [(pyStr fip,
                    ⟨(add_command_to_queue cmd (pyStr fip) t.st).1, cmd⟩)],
                  del := t.del } := by
              simp [traceStep, hc]
            rw [hstep]
            simp only [enqFor, delFor]
            rw [histFor_append, queueFor_add]
            by_cases hip : pyStr fip = ip
            · simp [hip, hq, List.append_assoc]
            · simp [hip, hq]
  | poll ra =>
      cases hd : dictGet t.st.command_dict_queue ra with
      | none =>
          simpa [traceStep, get_command_to_execute, hd, enqFor, delFor,
            queueFor] using h ip
      | some q =>
          cases q with
          | nil =>
              simpa [traceStep, get_command_to_execute, hd, enqFor, delFor,
                queueFor] using h ip
          | cons c rest =>
              simp only [traceStep, get_command_to_execute, hd, enqFor, delFor]
              rw [histFor_append]
              by_cases hip : ra = ip
              · subst hip
                have hqc : queueFor ra t.st = c :: rest := by
                  simp [queueFor, hd]
                have hnew : queueFor ra
                    { t.st with
                      clients :=
                        if ra ∈ t.st.clients then t.st.clients
                        else t.st.clients ++ [ra]
                      command_dict_queue :=
                        dictSet t.st.command_dict_queue ra rest } = rest := by
                  simp [queueFor, dictGet_dictSet_same]
                simp only [if_pos rfl, hnew]
                rw [hq, hqc, List.append_assoc]
                rfl
              · have hnew : queueFor ip
                    { t.st with
                      clients :=
                        if ra ∈ t.st.clients then t.st.clients
                        else t.st.clients ++ [ra]
                      command_dict_queue :=
                        dictSet t.st.command_dict_queue ra rest }
                      = queueFor ip t.st := by
                  simp [queueFor, dictGet_dictSet_ne _ _ _ _ (Ne.symm hip)]
                simp [hip, hnew, hq]

theorem runTrace_inv (tr : List ServerEvent) : queueInv (runTrace tr) := by
  have main : ∀ l t, queueInv t → queueInv (List.foldl traceStep t l) := by
    intro l
    induction l with
    | nil => intro t h; exact h
    | cons e rest ih => intro t h; exact ih _ (traceStep_inv t e h)
  refine main tr _ ?_
  intro ip
  rfl

/-- C3: the command queue of each client ip is FIFO and delivers at most once:
over any sequence of server requests, the commands /execute_command enqueued
for an ip equal the commands /getCommandToExecute delivered to that ip
followed by the commands still pending for it — so the delivery history is an
initial segment of the enqueue history (A enqueued before B is delivered
before B), and no enqueued command is handed out twice. -/
theorem rshell_command_queue_fifo (tr : List ServerEvent) (ip : String) :
    enqFor ip (runTrace tr) =
      delFor ip (runTrace tr) ++ queueFor ip (runTrace tr).st :=
  runTrace_inv tr ip

/-!
Clients membership and the constructor's health-polling loop.
-/

/-- A /getCommandToExecute request records its address in clients; no other
request touches the list. -/
theorem traceStep_clients_mem (t : TraceState) (e : ServerEvent) (ip : String) :
    (ip ∈ (traceStep t e).st.clients ↔
      ip ∈ t.st.clients ∨ e = ServerEvent.poll ip) := by
  cases e with
  | health x => simp [traceStep]
  | postResult data cid rc => simp [traceStep, post_result]
  | postException data cid => simp [traceStep, post_exception]
  | execCmd fc fip =>
      cases fc with
      | none => simp [traceStep]
      | some cmd =>
          by_cases hc : cmd = ""
          · simp [traceStep, hc]
          · simp [traceStep, hc, add_command_to_queue]
  | poll ra =>
      have hcl : (traceStep t (ServerEvent.poll ra)).st.clients =
          (if ra ∈ t.st.clients then t.st.clients else t.st.clients ++ [ra]) := by
        unfold traceStep get_command_to_execute
        cases hd : dictGet t.st.command_dict_queue ra with
        | none => simp [hd]
        | some q => cases q <;> simp [hd]
      rw [hcl]
      by_cases hm : ra ∈ t.st.clients
      · simp only [if_pos hm, ServerEvent.poll.injEq]
        exact ⟨fun h => Or.inl h, fun h => h.elim id (fun hh => hh ▸ hm)⟩
      · simp only [if_neg hm, List.mem_append, List.mem_singleton,
          ServerEvent.poll.injEq]
        constructor
        · rintro (h | rfl)
          · exact Or.inl h
          · exact Or.inr rfl
        · rintro (h | rfl)
          · exact Or.inl h
          · exact Or.inr rfl

theorem foldl_clients_mem (l : List ServerEvent) :
    ∀ t ip, (ip ∈ (List.foldl traceStep t l).st.clients ↔
      ip ∈ t.st.clients ∨ ServerEvent.poll ip ∈ l) := by
  induction l with
  | nil => intro t ip; simp
  | cons e rest ih =>
      intro t ip
      rw [List.foldl_cons, ih, traceStep_clients_mem]
      constructor
      · rintro ((h | rfl) | h)
        · exact Or.inl h
        · exact Or.inr (List.mem_cons_self _ _)
        · exact Or.inr (List.mem_cons_of_mem _ h)
      · rintro (h | h)
        · exact Or.inl (Or.inl h)
        · rcases List.mem_cons.mp h with rfl | h2
          · exact Or.inl (Or.inr rfl)
          · exact Or.inr h2

/-- An ip is a recorded client exactly when it has issued a
/getCommandToExecute request. -/
theorem clients_iff_polled (tr : List ServerEvent) (ip : String) :
    (ip ∈ (runTrace tr).st.clients ↔ ServerEvent.poll ip ∈ tr) := by
  rw [runTrace, foldl_clients_mem]
  simp [initialServerState]

theorem health_check_cases (ip : String) (s : ServerState) :
    (health_check ip s = 200 ↔ ip ∈ s.clients) ∧
    (health_check ip s = 200 ∨ health_check ip s = 503) := by
  unfold health_check
  by_cases h : ip ∈ s.clients <;> simp [h]

theorem rshell_init_poll_loop_iff (ip : String)
    (traces : Nat → List ServerEvent) :
    ∀ fuel k, (rshell_init_poll_loop ip traces k fuel = true ↔
      ∃ j, j < fuel ∧ health_check ip (runTrace (traces (k + j))).st = 200) := by
  intro fuel
  induction fuel with
  | zero => intro k; simp [rshell_init_poll_loop]
  | succ fuel ih =>
      intro k
      by_cases hh : health_check ip (runTrace (traces k)).st = 200
      · simp only [rshell_init_poll_loop, hh, if_pos, if_true]
        constructor
        · intro _
          exact ⟨0, Nat.succ_pos fuel, by simpa using hh⟩
        · intro _; trivial
      · simp only [rshell_init_poll_loop, hh, if_neg, if_false]
        rw [ih (k + 1)]
        constructor
        · rintro ⟨j, hj, hjh⟩
          refine ⟨j + 1, by omega, ?_⟩
          have e : k + (j + 1) = (k + 1) + j := by omega
          rw [e]; exact hjh
        · rintro ⟨j, hj, hjh⟩
          cases j with
          | zero => exact absurd (by simpa using hjh) hh
          | succ j' =>
              refine ⟨j', by omega, ?_⟩
              have e : (k + 1) + j' = k + (j' + 1) := by omega
              rw [e]; exact hjh

/-- C10: /health/<ip> answers 200 exactly when the ip is in the server's
clients list (503 otherwise); an ip enters that list exactly by issuing a
/getCommandToExecute request; hence the health loop of
RShellConnection.__init__ completes without TimeoutError exactly when the
target client polled the server at least once within its
connection_timeout-bounded sequence of health checks. -/
theorem rshell_health_check_and_init (ip : String)
    (traces : Nat → List ServerEvent) (fuel : Nat) :
    (∀ s : ServerState, (health_check ip s = 200 ↔ ip ∈ s.clients) ∧
      (health_check ip s = 200 ∨ health_check ip s = 503)) ∧
    (∀ tr : List ServerEvent,
      (ip ∈ (runTrace tr).st.clients ↔ ServerEvent.poll ip ∈ tr)) ∧
    (rshell_init_ok ip traces fuel = true ↔
      ∃ k, k < fuel ∧ ServerEvent.poll ip ∈ traces k) := by
  refine ⟨fun s => health_check_cases ip s, fun tr => clients_iff_polled tr ip, ?_⟩
  rw [rshell_init_ok, rshell_init_poll_loop_iff]
  constructor
  · rintro ⟨j, hj, hjh⟩
    refine ⟨j, hj, ?_⟩
    have hmem := (health_check_cases ip (runTrace (traces (0 + j))).st).1.mp hjh
    rw [Nat.zero_add] at hmem
    exact (clients_iff_polled (traces j) ip).mp hmem
  · rintro ⟨k, hk, hp⟩
    refine ⟨k, hk, ?_⟩
    rw [Nat.zero_add]
    exact (health_check_cases ip (runTrace (traces k)).st).1.mpr
      ((clients_iff_polled (traces k) ip).mpr hp)

end MfdConnect
